import Mathlib

/-!
# Verification of the AdobePDF Challenge_1b analysis pipeline

Shallow embedding of the persona-driven PDF analysis pipeline from
`src/Challenge_1b/src/` (persona_analyzer.py, pdf_processor.py,
text_refiner.py, pdf_analyzer.py, json_handler.py).

Modelling conventions:
* Python `str` is modelled by Lean `String` (a list of unicode code points,
  matching Python's code-point semantics for the ASCII inputs used here);
  Python string primitives (`in`, `lower`, `strip`, `split`, `isupper`,
  `startswith`, `count`, `replace`) are re-implemented below on `List Char`.
* Python `float` literals 0.1 / 0.2 / 0.15 / 0.4 / 0.6 are modelled as exact
  rationals (`ℚ`).  All claims proved about scores concern bounds and linear
  comparisons that hold equally in either arithmetic.
* Python's stable `list.sort(key=..., reverse=True)` is modelled by a stable
  insertion sort `sortDesc` (any two stable sorts by the same key agree).
* `pdfplumber` / `PyPDF2` are external binary parsers (out of scope per the
  spec); a parsed document is modelled as `RawDoc`: the ordered page texts
  the parser would return, or `none` when the parser raises.
* The text refiner's travel/hr/food branches are built from Python `re`
  extractors; the pipeline is therefore parameterised by the refinement
  function `refine : String → String → String`, and pipeline theorems are
  proved for every such pure function (hence in particular for the real
  one).  The regex-free generic branch (`summarize_content`) is embedded in
  full.
-/

namespace AdobePDF

/-! ## Python string primitives -/

/-- Prefix test: `isPre pat l` holds when `pat` is a prefix of `l`. -/
def isPre : List Char → List Char → Bool
  | [], _ => true
  | _ :: _, [] => false
  | p :: ps, c :: cs => p == c && isPre ps cs

/-- Substring containment: `containsSubList t pat` is Python `pat in t`. -/
def containsSubList : List Char → List Char → Bool
  | [], pat => pat.isEmpty
  | c :: ts, pat => isPre pat (c :: ts) || containsSubList ts pat

/-- Python `sub in t` on strings. -/
def pyContains (t sub : String) : Bool := containsSubList t.toList sub.toList

/-- Python `str.lower()` (ASCII case folding, which coincides with Python on
the ASCII texts and keywords of this code base). -/
def pyLower (s : String) : String := String.mk (s.toList.map Char.toLower)

/-- Strip characters: Python `str.strip()` whitespace (space, tab, CR, LF —
the whitespace actually occurring in the modelled texts). -/
def stripList (l : List Char) : List Char :=
  ((l.reverse.dropWhile Char.isWhitespace).reverse).dropWhile Char.isWhitespace

/-- Python `str.strip()`. -/
def pyStrip (s : String) : String := String.mk (stripList s.toList)

/-- Helper for Python `str.split()` with no separator: split on runs of
whitespace, dropping empty words.  `acc` holds the current word reversed. -/
def pySplitWsAux : List Char → List Char → List (List Char)
  | [], acc => if acc.isEmpty then [] else [acc.reverse]
  | c :: cs, acc =>
    if c.isWhitespace then
      if acc.isEmpty then pySplitWsAux cs [] else acc.reverse :: pySplitWsAux cs []
    else pySplitWsAux cs (c :: acc)

/-- Python `str.split()` (no separator). -/
def pySplitWs (s : String) : List String := (pySplitWsAux s.toList []).map String.mk

/-- Python `str.isupper()`: at least one cased character and no lowercase
cased character (ASCII). -/
def pyIsUpper (s : String) : Bool :=
  s.toList.any Char.isUpper && s.toList.all (fun c => !c.isLower)

/-- Python `str.startswith(pre)`. -/
def pyStartsWith (s pre : String) : Bool := isPre pre.toList s.toList

/-- Python `str.count(' ')` restricted to single characters. -/
def countChar (s : String) (c : Char) : Nat := s.toList.countP (fun d => d == c)

/-- Split a character list at every separator character satisfying `p`,
keeping empty segments (Python `str.split(sep)` semantics for a one-char
separator; also used for `re.split('[.!?]+', ...)`, see `rePunctSplit`). -/
def splitPAux (p : Char → Bool) : List Char → List Char → List (List Char)
  | [], acc => [acc.reverse]
  | c :: cs, acc =>
    if p c then acc.reverse :: splitPAux p cs [] else splitPAux p cs (c :: acc)

/-- Python `text.split('\n')`. -/
def pySplitLines (s : String) : List String :=
  (splitPAux (fun c => c == '\n') s.toList []).map String.mk

/-- Sentence-terminating punctuation of `re.split(r'[.!?]+', ...)`. -/
def isSentencePunct (c : Char) : Bool := c == '.' || c == '!' || c == '?'

/-- Model of `re.split(r'[.!?]+', s)`: here modelled by splitting at every single
punctuation character.  The real regex collapses runs of punctuation, so it
produces no empty segment *between* two punctuation marks while this model
does; every consumer in the source immediately strips segments and drops the
empty ones, after which the two splittings agree. -/
def rePunctSplit (s : String) : List String :=
  (splitPAux isSentencePunct s.toList []).map String.mk

/-- Python `t.replace(pat, '')`: remove every (left-to-right, non-overlapping)
occurrence of `pat`.  The recursion is driven by a fuel argument (initialised
to the text length, which bounds the number of steps since every step
consumes at least one character when `pat` is non-empty); this keeps the
definition structurally recursive so that it evaluates by kernel
reduction. -/
def removeAllFuel : Nat → List Char → List Char → List Char
  | 0, t, _ => t
  | _ + 1, [], _ => []
  | fuel + 1, c :: cs, pat =>
    if pat.isEmpty then c :: cs
    else if isPre pat (c :: cs) then removeAllFuel fuel ((c :: cs).drop pat.length) pat
    else c :: removeAllFuel fuel cs pat

/-- Python `t.replace(pat, '')` on strings. -/
def removeAll (t pat : String) : String :=
  String.mk (removeAllFuel t.toList.length t.toList pat.toList)

/-! ## Persona taxonomy (`persona_analyzer.py`) -/

/-- The `PersonaType` enumeration. -/
inductive PersonaType where
  | TRAVEL_PLANNER
  | HR_PROFESSIONAL
  | FOOD_CONTRACTOR
deriving DecidableEq

/-- Table `PersonaAnalyzer.persona_keywords` (identity keywords, weight 0.1). -/
def persona_keywords : PersonaType → List (String × List String)
  | .TRAVEL_PLANNER =>
    [("destinations", ["city", "town", "village", "coast", "beach", "mountain"]),
     ("activities", ["visit", "explore", "tour", "experience", "enjoy", "discover"]),
     ("logistics", ["hotel", "restaurant", "transport", "booking", "reservation"]),
     ("planning", ["itinerary", "schedule", "plan", "organize", "arrange"]),
     ("group_travel", ["group", "friends", "college", "budget", "shared"]),
     ("cultural", ["culture", "tradition", "history", "local", "authentic"])]
  | .HR_PROFESSIONAL =>
    [("forms", ["form", "fillable", "interactive", "field", "input"]),
     ("compliance", ["compliance", "legal", "regulation", "policy", "requirement"]),
     ("workflow", ["workflow", "process", "approval", "signature", "tracking"]),
     ("onboarding", ["onboarding", "new hire", "employee", "orientation", "training"]),
     ("documentation", ["document", "record", "file", "archive", "store"]),
     ("automation", ["automate", "efficiency", "streamline", "optimize"])]
  | .FOOD_CONTRACTOR =>
    [("recipes", ["recipe", "ingredient", "cook", "prepare", "make"]),
     ("vegetarian", ["vegetarian", "vegan", "plant-based", "meatless"]),
     ("buffet", ["buffet", "catering", "large group", "serving", "presentation"]),
     ("corporate", ["corporate", "business", "professional", "formal"]),
     ("dietary", ["gluten-free", "allergy", "dietary", "restriction"]),
     ("planning", ["menu", "planning", "preparation", "timing", "logistics"])]

/-- Table `PersonaAnalyzer.task_keywords` (task keywords, weight 0.2). -/
def task_keywords : PersonaType → List (String × List String)
  | .TRAVEL_PLANNER =>
    [("trip_planning", ["plan", "organize", "arrange", "schedule", "itinerary"]),
     ("group_coordination", ["group", "friends", "college", "budget", "shared"]),
     ("destination_research", ["destination", "location", "place", "area", "region"]),
     ("activity_planning", ["activity", "attraction", "experience", "entertainment"]),
     ("logistics", ["accommodation", "transport", "booking", "reservation"])]
  | .HR_PROFESSIONAL =>
    [("form_creation", ["create", "build", "design", "develop", "make"]),
     ("form_management", ["manage", "organize", "track", "monitor", "maintain"]),
     ("onboarding_process", ["onboarding", "new hire", "employee", "orientation"]),
     ("compliance_tracking", ["compliance", "legal", "regulation", "requirement"]),
     ("workflow_automation", ["automate", "workflow", "process", "efficiency"])]
  | .FOOD_CONTRACTOR =>
    [("menu_planning", ["menu", "plan", "design", "create", "develop"]),
     ("vegetarian_catering", ["vegetarian", "catering", "buffet", "serving"]),
     ("corporate_event", ["corporate", "business", "professional", "formal"]),
     ("dietary_accommodation", ["dietary", "allergy", "restriction", "gluten-free"]),
     ("preparation_logistics", ["prepare", "cook", "timing", "logistics"])]

/-- All identity keywords of a persona, in the nested iteration order of
`analyze_content_relevance`'s first loop. -/
def persona_all_keywords (p : PersonaType) : List String :=
  (persona_keywords p).flatMap Prod.snd

/-- All task keywords of a persona, in the nested iteration order of
`analyze_content_relevance`'s second loop. -/
def task_all_keywords (p : PersonaType) : List String :=
  (task_keywords p).flatMap Prod.snd

/-- Number of identity keywords present in the lowered text (each `in` hit of
the first loop adds 0.1, so the accumulated contribution is the hit count
times 0.1). -/
def personaHits (p : PersonaType) (tl : String) : Nat :=
  (persona_all_keywords p).countP (fun k => pyContains tl k)

/-- Number of task keywords present in the lowered text (0.2 each). -/
def taskHits (p : PersonaType) (tl : String) : Nat :=
  (task_all_keywords p).countP (fun k => pyContains tl k)

/-- Whitespace tokens of the lowered task description
(`task_lower.split()`). -/
def task_terms (taskl : String) : List String := pySplitWs taskl

/-- Number of task-description terms longer than 3 characters present in the
lowered text (0.15 each; duplicated tokens count once per occurrence in the
task description, exactly as the third loop does). -/
def freeHits (taskl tl : String) : Nat :=
  (task_terms taskl).countP (fun term => decide (3 < term.length) && pyContains tl term)

/-- The accumulated, un-clamped relevance score of
`analyze_content_relevance`. -/
def raw_relevance (p : PersonaType) (tl taskl : String) : ℚ :=
  (personaHits p tl : ℚ) * 0.1 + (taskHits p tl : ℚ) * 0.2 + (freeHits taskl tl : ℚ) * 0.15

/-- The `relevant_keywords` accumulator, in append order.  The source returns
`list(set(relevant_keywords))` whose element order Python leaves unspecified;
we return the distinct elements (`dedup`) in a deterministic order, and state
membership/set-level facts about it. -/
def relevant_keywords_of (p : PersonaType) (tl taskl : String) : List String :=
  ((persona_all_keywords p).filter (fun k => pyContains tl k)
    ++ (task_all_keywords p).filter (fun k => pyContains tl k)
    ++ (task_terms taskl).filter (fun term => decide (3 < term.length) && pyContains tl term)).dedup

/-- Scorer `PersonaAnalyzer.analyze_content_relevance`: lower both inputs, add 0.1
per identity-keyword hit, 0.2 per task-keyword hit, 0.15 per long task term
hit, clamp with `min(score, 1.0)`, and return the matched keywords. -/
def analyze_content_relevance (text : String) (p : PersonaType) (task : String) :
    ℚ × List String :=
  let tl := pyLower text
  let taskl := pyLower task
  (min (raw_relevance p tl taskl) 1, relevant_keywords_of p tl taskl)

/-! ## Persona classification (`get_persona_type`) -/

/-- The fallback persona when no category-defining substring matches
(`# Default to travel planner if unknown`). -/
def default_persona : PersonaType := .TRAVEL_PLANNER

/-- Classifier `PersonaAnalyzer.get_persona_type`: lower the role string and test the
category-defining substrings in the source's fixed order. -/
def get_persona_type (persona_role : String) : PersonaType :=
  let role_lower := pyLower persona_role
  if pyContains role_lower "travel" || pyContains role_lower "planner" then
    .TRAVEL_PLANNER
  else if pyContains role_lower "hr" || pyContains role_lower "professional" then
    .HR_PROFESSIONAL
  else if pyContains role_lower "food" || pyContains role_lower "contractor" then
    .FOOD_CONTRACTOR
  else
    default_persona

/-- The ordered classification rule table, as the spec describes the policy:
an ordered list of category-defining substrings, first match wins. -/
def classify_table : List (List String × PersonaType) :=
  [(["travel", "planner"], .TRAVEL_PLANNER),
   (["hr", "professional"], .HR_PROFESSIONAL),
   (["food", "contractor"], .FOOD_CONTRACTOR)]

/-- First-match-wins lookup in an ordered rule table. -/
def orderedClassifyAux (rl : String) : List (List String × PersonaType) → PersonaType
  | [] => default_persona
  | e :: rest =>
    if e.1.any (fun kw => pyContains rl kw) then e.2 else orderedClassifyAux rl rest

/-- Spec-side classification: lower-case the role, walk the ordered table,
fall back to the default category. -/
def orderedClassify (role : String) : PersonaType :=
  orderedClassifyAux (pyLower role) classify_table

/-! ## Claims C2, C4, C5 -/

/-- C2: for every text, persona category and task description the relevance
score returned by `analyze_content_relevance` lies in [0, 1], and it is a
clamped non-negative combination of the fixed weights 0.1 (persona keyword),
0.2 (task keyword) and 0.15 (task term longer than 3 characters). -/
theorem claim_C2_relevance_score_bounded (text : String) (p : PersonaType) (task : String) :
    0 ≤ (analyze_content_relevance text p task).1 ∧
    (analyze_content_relevance text p task).1 ≤ 1 ∧
    ∃ a b c : ℕ, (analyze_content_relevance text p task).1
      = min ((a : ℚ) * 0.1 + (b : ℚ) * 0.2 + (c : ℚ) * 0.15) 1 := by
  refine ⟨?_, min_le_right _ _,
    personaHits p (pyLower text), taskHits p (pyLower text),
    freeHits (pyLower task) (pyLower text), rfl⟩
  have h1 : (0 : ℚ) ≤ raw_relevance p (pyLower text) (pyLower task) := by
    unfold raw_relevance
    positivity
  exact le_min h1 (by norm_num)

/-- C4: persona classification lower-cases the role and matches the ordered
rule table, first match wins, falling back to the configured default
category; in particular "Experienced Travel Planner" classifies as
TRAVEL_PLANNER and "Accounts Payable Clerk" falls back to the default. -/
theorem claim_C4_persona_classification :
    (∀ role : String, get_persona_type role = orderedClassify role) ∧
    get_persona_type "Experienced Travel Planner" = PersonaType.TRAVEL_PLANNER ∧
    get_persona_type "Accounts Payable Clerk" = default_persona := by
  refine ⟨?_, by decide, by decide⟩
  intro role
  simp only [get_persona_type, orderedClassify, classify_table, orderedClassifyAux,
    List.any_cons, List.any_nil, Bool.or_false]

/-- The page text of the C5 scenario. -/
def c5_text : String := "Visit Paris and explore the Louvre. Book your hotel early."

/-- The task description of the C5 scenario. -/
def c5_task : String := "Plan a group trip"

/-- C5 counterexample: on the scenario text the matched keyword set is
{"visit", "explore", "hotel"}; contrary to the claim it contains neither
"book" (the taxonomy keyword is "booking", which does not occur) nor "plan"
("plan" does not occur in the page text). -/
theorem claim_C5_counterexample :
    (analyze_content_relevance c5_text .TRAVEL_PLANNER c5_task).2
      = ["visit", "explore", "hotel"] ∧
    "book" ∉ (analyze_content_relevance c5_text .TRAVEL_PLANNER c5_task).2 ∧
    "plan" ∉ (analyze_content_relevance c5_text .TRAVEL_PLANNER c5_task).2 := by
  decide

/-- C5 (amended): the scenario text under TRAVEL_PLANNER with task "Plan a
group trip" scores 0.3 > 0 and matches exactly the keywords
{"visit", "explore", "hotel"}. -/
theorem claim_C5_amended_scenario :
    0 < (analyze_content_relevance c5_text .TRAVEL_PLANNER c5_task).1 ∧
    (analyze_content_relevance c5_text .TRAVEL_PLANNER c5_task).1 = 0.3 ∧
    (analyze_content_relevance c5_text .TRAVEL_PLANNER c5_task).2
      = ["visit", "explore", "hotel"] := by
  have hP : personaHits .TRAVEL_PLANNER (pyLower c5_text) = 3 := by decide
  have hT : taskHits .TRAVEL_PLANNER (pyLower c5_text) = 0 := by decide
  have hF : freeHits (pyLower c5_task) (pyLower c5_text) = 0 := by decide
  refine ⟨?_, ?_, by decide⟩ <;>
    simp only [analyze_content_relevance, raw_relevance, hP, hT, hF] <;> norm_num

/-! ## Stable descending sort

Python's `list.sort(key=..., reverse=True)` is a stable sort ordering by
non-increasing key.  Any two stable sorts by the same key produce the same
list, so it is modelled by a stable insertion sort: an element is inserted
before the first earlier-inserted element whose key is not larger, hence
after every earlier element with an equal key. -/

/-- Insert `x` (originally positioned before all of `l`) into the sorted
list `l`, keeping descending keys and stability. -/
def insertDesc {α β : Type} [LinearOrder β] (key : α → β) (x : α) : List α → List α
  | [] => [x]
  | y :: ys => if key y ≤ key x then x :: y :: ys else y :: insertDesc key x ys

/-- Stable sort by non-increasing key (model of
`list.sort(key=..., reverse=True)`). -/
def sortDesc {α β : Type} [LinearOrder β] (key : α → β) : List α → List α
  | [] => []
  | x :: xs => insertDesc key x (sortDesc key xs)

theorem insertDesc_perm {α β : Type} [LinearOrder β] (key : α → β) (x : α) (l : List α) :
    List.Perm (insertDesc key x l) (x :: l) := by
  induction l with
  | nil => exact List.Perm.refl _
  | cons y ys ih =>
    by_cases h : key y ≤ key x
    · simp [insertDesc, h]
    · simp only [insertDesc, if_neg h]
      exact (ih.cons y).trans (List.Perm.swap x y ys)

theorem sortDesc_perm {α β : Type} [LinearOrder β] (key : α → β) (l : List α) :
    List.Perm (sortDesc key l) l := by
  induction l with
  | nil => exact List.Perm.refl _
  | cons x xs ih => exact (insertDesc_perm key x (sortDesc key xs)).trans (ih.cons x)

theorem insertDesc_pairwise {α β : Type} [LinearOrder β] (key : α → β) (x : α) (l : List α)
    (h : l.Pairwise (fun a b => key b ≤ key a)) :
    (insertDesc key x l).Pairwise (fun a b => key b ≤ key a) := by
  induction l with
  | nil => simp [insertDesc]
  | cons y ys ih =>
    rcases List.pairwise_cons.mp h with ⟨hy, hys⟩
    by_cases hk : key y ≤ key x
    · simp only [insertDesc, if_pos hk]
      refine List.pairwise_cons.mpr ⟨?_, h⟩
      intro z hz
      rcases List.mem_cons.mp hz with rfl | hz
      · exact hk
      · exact le_trans (hy z hz) hk
    · simp only [insertDesc, if_neg hk]
      refine List.pairwise_cons.mpr ⟨?_, ih hys⟩
      intro z hz
      rcases List.mem_cons.mp ((insertDesc_perm key x ys).mem_iff.mp hz) with rfl | hz
      · exact le_of_lt (not_le.mp hk)
      · exact hy z hz

theorem sortDesc_pairwise {α β : Type} [LinearOrder β] (key : α → β) (l : List α) :
    (sortDesc key l).Pairwise (fun a b => key b ≤ key a) := by
  induction l with
  | nil => simp [sortDesc]
  | cons x xs ih => exact insertDesc_pairwise key x (sortDesc key xs) ih

theorem insertDesc_filter_key {α β : Type} [LinearOrder β] (key : α → β) (x : α)
    (l : List α) (q : β) :
    (insertDesc key x l).filter (fun a => decide (key a = q))
      = (x :: l).filter (fun a => decide (key a = q)) := by
  induction l with
  | nil => rfl
  | cons y ys ih =>
    by_cases hk : key y ≤ key x
    · simp [insertDesc, hk]
    · simp only [insertDesc, if_neg hk]
      by_cases hy : key y = q
      · by_cases hx : key x = q
        · exact absurd (le_of_eq (hy.trans hx.symm)) hk
        · simp [List.filter_cons, hy, hx, ih]
      · simp [List.filter_cons, hy, ih]

/-- Stability of `sortDesc`: for every key value, the elements carrying that
key appear in the sorted output exactly in their original order. -/
theorem sortDesc_filter_key {α β : Type} [LinearOrder β] (key : α → β) (l : List α) (q : β) :
    (sortDesc key l).filter (fun a => decide (key a = q))
      = l.filter (fun a => decide (key a = q)) := by
  induction l with
  | nil => rfl
  | cons x xs ih =>
    calc (sortDesc key (x :: xs)).filter (fun a => decide (key a = q))
        = (x :: sortDesc key xs).filter (fun a => decide (key a = q)) :=
          insertDesc_filter_key key x (sortDesc key xs) q
      _ = (x :: xs).filter (fun a => decide (key a = q)) := by
          by_cases hx : key x = q <;> simp [List.filter_cons, hx, ih]

/-! ## Sections and ranking (`pdf_processor.py`, `persona_analyzer.py`) -/

/-- A section dictionary: `{'title', 'content', 'start_line'}`, later
augmented with `'page_number'` and `'document'` by the callers
(`process_pdf_collection` / `analyze_collection`); the two extra fields are
carried here with placeholder values until they are assigned. -/
structure PSection where
  title : String
  content : String
  start_line : Nat
  page_number : Nat := 0
  document : String := ""
deriving DecidableEq

/-- Ranker `PersonaAnalyzer.rank_sections_by_importance`: score every section as
`title_relevance * 0.4 + content_relevance * 0.6` and stably sort by
descending score. -/
def rank_sections_by_importance (sections : List PSection) (p : PersonaType)
    (task : String) : List (PSection × ℚ) :=
  sortDesc Prod.snd
    (sections.map fun s =>
      (s, (analyze_content_relevance s.title p task).1 * (0.4 : ℚ)
        + (analyze_content_relevance s.content p task).1 * (0.6 : ℚ)))

/-- One record of the `extracted_sections` output list. -/
structure ExtractedSection where
  document : String
  section_title : String
  importance_rank : Nat
  page_number : Nat
deriving DecidableEq

/-- The `extracted_sections` list built by `analyze_collection`: the first 5
ranked sections, with `importance_rank` the 1-based enumeration index. -/
def top_extracted (ranked : List (PSection × ℚ)) : List ExtractedSection :=
  (ranked.take 5).enum.map fun ip =>
    { document := ip.2.1.document, section_title := ip.2.1.title,
      importance_rank := ip.1 + 1, page_number := ip.2.1.page_number }

theorem enumFrom_map_snd {α β : Type} (f : α → β) :
    ∀ (n : Nat) (l : List α), (l.enumFrom n).map (fun p => f p.2) = l.map f
  | _, [] => rfl
  | n, x :: xs => by
    simp only [List.enumFrom, List.map_cons]
    exact congrArg _ (enumFrom_map_snd f (n + 1) xs)

theorem enum_map_snd {α β : Type} (f : α → β) (l : List α) :
    l.enum.map (fun p => f p.2) = l.map f := enumFrom_map_snd f 0 l

theorem enum_length_eq {α : Type} (l : List α) : l.enum.length = l.length := by
  have h := congrArg List.length (List.enum_map_fst l)
  simp only [List.length_map, List.length_range] at h
  exact h

theorem enum_map_rank {α : Type} (l : List α) :
    l.enum.map (fun p => p.1 + 1) = (List.range l.length).map (fun i => i + 1) := by
  rw [← List.enum_map_fst l, List.map_map]
  rfl

/-- C1: the ranked-sections output assigns each section the combined score
`0.4 * score(title) + 0.6 * score(body)` (the ranked list is a permutation
of the input decorated with exactly that score), is sorted by non-increasing
combined score with ties kept in original input order, and keeps at most 5
entries whose `importance_rank` is the 1-based position. -/
theorem claim_C1_section_ranking (sections : List PSection) (p : PersonaType) (task : String) :
    List.Perm (rank_sections_by_importance sections p task)
      (sections.map (fun s =>
          (s, (analyze_content_relevance s.title p task).1 * (0.4 : ℚ)
            + (analyze_content_relevance s.content p task).1 * (0.6 : ℚ)))) ∧
    (rank_sections_by_importance sections p task).Pairwise (fun a b => b.2 ≤ a.2) ∧
    (∀ q : ℚ, (rank_sections_by_importance sections p task).filter
        (fun pr => decide (pr.2 = q))
      = (sections.map (fun s =>
          (s, (analyze_content_relevance s.title p task).1 * (0.4 : ℚ)
            + (analyze_content_relevance s.content p task).1 * (0.6 : ℚ)))).filter
        (fun pr => decide (pr.2 = q))) ∧
    (top_extracted (rank_sections_by_importance sections p task)).length
      = min 5 (rank_sections_by_importance sections p task).length ∧
    (top_extracted (rank_sections_by_importance sections p task)).map
        (fun e => e.importance_rank)
      = (List.range
          (top_extracted (rank_sections_by_importance sections p task)).length).map
        (fun i => i + 1) ∧
    (top_extracted (rank_sections_by_importance sections p task)).map
        (fun e => e.section_title)
      = ((rank_sections_by_importance sections p task).take 5).map (fun pr => pr.1.title) := by
  refine ⟨sortDesc_perm _ _, sortDesc_pairwise _ _, fun q => sortDesc_filter_key _ _ q,
    ?_, ?_, ?_⟩
  · simp [top_extracted, enum_length_eq, List.length_take]
  · simp only [top_extracted, List.map_map, List.length_map, enum_length_eq]
    exact enum_map_rank _
  · simp only [top_extracted, List.map_map]
    exact enum_map_snd (fun pr : PSection × ℚ => pr.1.title)
      ((rank_sections_by_importance sections p task).take 5)

/-! ## Claim C3: per-keyword score increments -/

/-- If `p → q` pointwise on `l`, and some member `k` of `l` satisfies `q` but
not `p`, then `l` has strictly more `q`-hits than `p`-hits. -/
theorem countP_succ_le {α : Type} {l : List α} {p q : α → Bool} {k : α}
    (hmem : k ∈ l) (hpk : p k = false) (hqk : q k = true)
    (hmono : ∀ a ∈ l, p a = true → q a = true) :
    l.countP p + 1 ≤ l.countP q := by
  induction l with
  | nil => cases hmem
  | cons a as ih =>
    have htail : ∀ x ∈ as, p x = true → q x = true :=
      fun x hx hpx => hmono x (List.mem_cons_of_mem _ hx) hpx
    rcases List.mem_cons.mp hmem with rfl | hmem2
    · have h1 : as.countP p ≤ as.countP q := List.countP_mono_left htail
      simp [List.countP_cons, hpk, hqk]
      omega
    · have ih2 := ih hmem2 htail
      by_cases hpa : p a = true
      · have hqa := hmono a (List.mem_cons_self _ _) hpa
        simp [List.countP_cons, hpa, hqa]
        omega
      · have hpa2 : p a = false := eq_false_of_ne_true hpa
        by_cases hqa : q a = true <;> simp [List.countP_cons, hpa2, hqa] <;> omega

/-- All candidate match strings of one scoring run: identity keywords, task
keywords and task-description terms of the active persona category. -/
def all_match_keywords (p : PersonaType) (taskl : String) : List String :=
  persona_all_keywords p ++ task_all_keywords p ++ task_terms taskl

/-- The text of the C3 counterexample: ten TRAVEL_PLANNER identity keywords,
three of which are also task keywords, so the raw score 1.6 saturates the
`min(score, 1.0)` clamp. -/
def c3_text : String :=
  "visit explore tour experience enjoy discover hotel restaurant transport booking"

/-- C3 counterexample: "hotel" is a TRAVEL_PLANNER taxonomy keyword present
in `c3_text`, yet the score of `c3_text` is NOT at least the score of
`c3_text` with "hotel" removed plus the keyword's weight 0.1: both scores
clamp to 1.0, so the claimed inequality `score(t) ≥ score(t \ k) + 0.1`
fails (1.0 < 1.0 + 0.1). -/
theorem claim_C3_counterexample :
    "hotel" ∈ persona_all_keywords .TRAVEL_PLANNER ∧
    pyContains (pyLower c3_text) "hotel" = true ∧
    (analyze_content_relevance c3_text .TRAVEL_PLANNER "").1
      < (analyze_content_relevance (removeAll c3_text "hotel") .TRAVEL_PLANNER "").1
        + (0.1 : ℚ) := by
  refine ⟨by decide, by decide, ?_⟩
  have hP : personaHits .TRAVEL_PLANNER (pyLower c3_text) = 10 := by decide
  have hT : taskHits .TRAVEL_PLANNER (pyLower c3_text) = 3 := by decide
  have hF : freeHits (pyLower "") (pyLower c3_text) = 0 := by decide
  have hP2 : personaHits .TRAVEL_PLANNER (pyLower (removeAll c3_text "hotel")) = 9 := by
    decide
  have hT2 : taskHits .TRAVEL_PLANNER (pyLower (removeAll c3_text "hotel")) = 3 := by
    decide
  have hF2 : freeHits (pyLower "") (pyLower (removeAll c3_text "hotel")) = 0 := by decide
  simp only [analyze_content_relevance, raw_relevance, hP, hT, hF, hP2, hT2, hF2]
  rw [min_def, min_def]
  norm_num

/-- C3 (amended): for every taxonomy keyword `k` of the active persona
category (identity keyword, task keyword, or task term longer than 3
characters) present as a substring of the lowered text `t`, and every text
`tp` that does not contain `k` and whose matched candidate keywords are all
also matched by `t`, the un-clamped additive score of `t` is at least the
un-clamped score of `tp` plus `k`'s configured weight (0.1 / 0.2 / 0.15);
the returned clamped score never exceeds 1.0.  (Relative to the original
claim: the comparison must be on the un-clamped scores, since the
`min(score, 1.0)` clamp can absorb the increment, and "t with k's
occurrences removed" must be weakened to such a text `tp`, since removing
characters can create new keyword matches.) -/
theorem claim_C3_amended (p : PersonaType) (task t tp k : String) (w : ℚ)
    (hk : (k ∈ persona_all_keywords p ∧ w = 0.1)
        ∨ (k ∈ task_all_keywords p ∧ w = 0.2)
        ∨ ((k ∈ task_terms (pyLower task) ∧ 3 < k.length) ∧ w = 0.15))
    (hsub : pyContains (pyLower t) k = true)
    (hnot : pyContains (pyLower tp) k = false)
    (hmono : ∀ kp ∈ all_match_keywords p (pyLower task),
      pyContains (pyLower tp) kp = true → pyContains (pyLower t) kp = true) :
    raw_relevance p (pyLower tp) (pyLower task) + w
      ≤ raw_relevance p (pyLower t) (pyLower task) ∧
    (analyze_content_relevance t p task).1 ≤ 1 := by
  refine ⟨?_, min_le_right _ _⟩
  have hmonoP : ∀ kp ∈ persona_all_keywords p,
      pyContains (pyLower tp) kp = true → pyContains (pyLower t) kp = true := by
    intro kp hkp
    exact hmono kp (by simp [all_match_keywords, hkp])
  have hmonoT : ∀ kp ∈ task_all_keywords p,
      pyContains (pyLower tp) kp = true → pyContains (pyLower t) kp = true := by
    intro kp hkp
    exact hmono kp (by simp [all_match_keywords, hkp])
  have hmonoF : ∀ kp ∈ task_terms (pyLower task),
      pyContains (pyLower tp) kp = true → pyContains (pyLower t) kp = true := by
    intro kp hkp
    exact hmono kp (by simp [all_match_keywords, hkp])
  have hfmono : ∀ a ∈ task_terms (pyLower task),
      (decide (3 < a.length) && pyContains (pyLower tp) a) = true →
      (decide (3 < a.length) && pyContains (pyLower t) a) = true := by
    intro a ha hand
    have hand2 : decide (3 < a.length) = true ∧ pyContains (pyLower tp) a = true := by
      simpa using hand
    simp [hand2.1, hmonoF a ha hand2.2]
  have hPle : personaHits p (pyLower tp) ≤ personaHits p (pyLower t) :=
    List.countP_mono_left hmonoP
  have hTle : taskHits p (pyLower tp) ≤ taskHits p (pyLower t) :=
    List.countP_mono_left hmonoT
  have hFle : freeHits (pyLower task) (pyLower tp) ≤ freeHits (pyLower task) (pyLower t) :=
    List.countP_mono_left hfmono
  have hPleQ : (personaHits p (pyLower tp) : ℚ) ≤ personaHits p (pyLower t) := by
    exact_mod_cast hPle
  have hTleQ : (taskHits p (pyLower tp) : ℚ) ≤ taskHits p (pyLower t) := by
    exact_mod_cast hTle
  have hFleQ : (freeHits (pyLower task) (pyLower tp) : ℚ)
      ≤ freeHits (pyLower task) (pyLower t) := by
    exact_mod_cast hFle
  rcases hk with ⟨hkmem, rfl⟩ | ⟨hkmem, rfl⟩ | ⟨⟨hkmem, hklen⟩, rfl⟩
  · have hstrict : personaHits p (pyLower tp) + 1 ≤ personaHits p (pyLower t) :=
      countP_succ_le hkmem hnot hsub hmonoP
    have hstrictQ : (personaHits p (pyLower tp) : ℚ) + 1 ≤ personaHits p (pyLower t) := by
      exact_mod_cast hstrict
    unfold raw_relevance
    nlinarith [hstrictQ, hTleQ, hFleQ]
  · have hstrict : taskHits p (pyLower tp) + 1 ≤ taskHits p (pyLower t) :=
      countP_succ_le hkmem hnot hsub hmonoT
    have hstrictQ : (taskHits p (pyLower tp) : ℚ) + 1 ≤ taskHits p (pyLower t) := by
      exact_mod_cast hstrict
    unfold raw_relevance
    nlinarith [hstrictQ, hPleQ, hFleQ]
  · have hpk : (decide (3 < k.length) && pyContains (pyLower tp) k) = false := by
      simp [hnot]
    have hqk : (decide (3 < k.length) && pyContains (pyLower t) k) = true := by
      simp [hklen, hsub]
    have hstrict : freeHits (pyLower task) (pyLower tp) + 1
        ≤ freeHits (pyLower task) (pyLower t) :=
      countP_succ_le hkmem hpk hqk hfmono
    have hstrictQ : (freeHits (pyLower task) (pyLower tp) : ℚ) + 1
        ≤ freeHits (pyLower task) (pyLower t) := by
      exact_mod_cast hstrict
    unfold raw_relevance
    nlinarith [hstrictQ, hPleQ, hTleQ]

/-- C3 witness: instantiating the amended claim at the persona keyword
"hotel" (weight 0.1) contained in the text "hotel", against the empty text,
with the empty task description. -/
theorem claim_C3_witness :
    raw_relevance .TRAVEL_PLANNER (pyLower "") (pyLower "") + (0.1 : ℚ)
      ≤ raw_relevance .TRAVEL_PLANNER (pyLower "hotel") (pyLower "") ∧
    (analyze_content_relevance "hotel" .TRAVEL_PLANNER "").1 ≤ 1 :=
  claim_C3_amended .TRAVEL_PLANNER "" "hotel" "" "hotel" (0.1 : ℚ)
    (Or.inl ⟨by decide, rfl⟩) (by decide) (by decide) (by decide)

/-! ## Section headers (`pdf_processor.py`) -/

/-- The fixed topic-indicator words of `_is_section_header`. -/
def topic_indicator_words : List String :=
  ["guide", "overview", "introduction", "summary",
   "tips", "tricks", "instructions", "steps", "recipe",
   "ingredients", "method", "procedure", "workflow",
   "feature", "tool", "function", "destination", "activity"]

/-- The closed set of lowercase words allowed uncapitalized in a title-case
line. -/
def title_case_small_words : List String :=
  ["a", "an", "the", "and", "or", "of", "in", "on", "at", "to", "for"]

/-- Python `s[0].isupper()` (false on the empty string, which the source
never reaches). -/
def firstCharUpper (s : String) : Bool :=
  match s.toList with
  | [] => false
  | c :: _ => c.isUpper

/-- One word of the title-case check:
`word[0].isupper() or word.lower() in [...]`. -/
def word_title_ok (w : String) : Bool :=
  firstCharUpper w || decide (pyLower w ∈ title_case_small_words)

/-- The source's title-case indicator:
`line[0].isupper() and line.count(' ') >= 1 and all(word_title_ok)`. -/
def title_case_cond (l : String) : Bool :=
  firstCharUpper l && decide (1 ≤ countChar l ' ') && (pySplitWs l).all word_title_ok

/-- The `header_indicators` disjunction of `_is_section_header`, in source
order, evaluated on the stripped line. -/
def header_indicators (l : String) : Bool :=
  (pyIsUpper l && decide (3 < l.length))
  || pyStartsWith l "Chapter"
  || pyStartsWith l "Section"
  || pyStartsWith l "Part"
  || (decide ((pySplitWs l).length ≤ 8) && decide (10 < l.length))
  || topic_indicator_words.any (fun kw => pyContains (pyLower l) kw)
  || title_case_cond l

/-- Heuristic `PDFProcessor._is_section_header`: falsy line → False; strip; length < 3
→ False; otherwise any of the header indicators. -/
def is_section_header (line : String) : Bool :=
  if line = "" then false
  else if (pyStrip line).length < 3 then false
  else header_indicators (pyStrip line)

/-- The header condition exactly as claim C6 words it: the five indicators
with title-case read as "every word capitalized or in a closed set of
lowercase articles/prepositions" (no minimum line length, no requirement of
a second word or of an uppercase first character). -/
def header_cond_claimed (l : String) : Bool :=
  (pyIsUpper l && decide (3 < l.length))
  || pyStartsWith l "Chapter"
  || pyStartsWith l "Section"
  || pyStartsWith l "Part"
  || (decide ((pySplitWs l).length ≤ 8) && decide (10 < l.length))
  || topic_indicator_words.any (fun kw => pyContains (pyLower l) kw)
  || (pySplitWs l).all word_title_ok

/-- The amended header condition: a minimum stripped length of 3, and the
title-case disjunct additionally requires at least one space and an
uppercase first character. -/
def header_cond_amended (l : String) : Bool :=
  decide (3 ≤ l.length) && header_indicators l

/-- C6 counterexample: "Hello" is a stripped, non-empty, title-case line
(its single word is capitalized), so the claimed condition holds of it, yet
`_is_section_header` rejects it (the code's title-case check requires at
least one space).  Hence the claimed "if and only if" — and in particular
"every title-case line is a header candidate" — fails. -/
theorem claim_C6_counterexample :
    pyStrip "Hello" = "Hello" ∧ "Hello" ≠ "" ∧
    header_cond_claimed "Hello" = true ∧ is_section_header "Hello" = false := by
  decide

/-- C6 (amended): a line is classified as a section header if and only if
its stripped form has length at least 3 and satisfies one of the five
indicators, where the title-case indicator requires an uppercase first
character, at least one space, and every word capitalized or in the closed
lowercase-word set. -/
theorem claim_C6_amended_header_iff (line : String) :
    is_section_header line = header_cond_amended (pyStrip line) := by
  by_cases h0 : line = ""
  · subst h0
    decide
  · simp only [is_section_header, header_cond_amended, if_neg h0]
    by_cases hlen : (pyStrip line).length < 3
    · have h3 : decide (3 ≤ (pyStrip line).length) = false := by
        simp
        omega
      simp [hlen, h3]
    · have h3 : decide (3 ≤ (pyStrip line).length) = true := by
        simp
        omega
      simp [hlen, h3]

/-! ## Section extraction and document processing -/

/-- The index of the first header line at or after `start`
(`for j in range(i+1, len(lines)): if _is_section_header(lines[j].strip()):
content_end = j; break`), or `lines.length` when there is none. -/
def findNextHeader (lines : List String) (start : Nat) : Nat :=
  match (lines.drop start).findIdx? (fun ln => is_section_header (pyStrip ln)) with
  | some k => start + k
  | none => lines.length

/-- Segmenter `PDFProcessor.extract_sections_from_text`: split into lines, and for each
stripped non-empty header line emit a section whose content is the stripped
join of the lines up to (excluding) the next header. -/
def extract_sections_from_text (text : String) : List PSection :=
  (pySplitLines text).enum.filterMap fun il =>
    if pyStrip il.2 ≠ "" ∧ is_section_header (pyStrip il.2) = true then
      some { title := pyStrip il.2,
             content := pyStrip (String.intercalate "\n"
               (((pySplitLines text).drop (il.1 + 1)).take
                 (findNextHeader (pySplitLines text) (il.1 + 1) - (il.1 + 1)))),
             start_line := il.1 }
    else none

/-- A document as handed to `extract_text_from_pdf`: its filename and the
pages the external parser yields — `none` when the parser raises an
exception, otherwise one `Option String` per page (`None` or the page's
`extract_text()` result). -/
structure RawDoc where
  name : String
  parsed : Option (List (Option String))
deriving DecidableEq

/-- The page loop of `extract_text_from_pdf`:
`for page_num, page in enumerate(pdf.pages, 1): if text: pages[page_num] =
text.strip()`.  The resulting page-number-to-text mapping is an association
list in page order (Python dicts preserve insertion order). -/
def extract_pages_aux : Nat → List (Option String) → List (Nat × String)
  | _, [] => []
  | i, ot :: rest =>
    (match ot with
     | some t => if t ≠ "" then [(i, pyStrip t)] else []
     | none => []) ++ extract_pages_aux (i + 1) rest

/-- Extraction `PDFProcessor.extract_text_from_pdf`, with the `print` on the exception
path modelled as a returned log: a parser exception yields an empty mapping
and one log line; a normal parse yields the filtered mapping and no log. -/
def extract_text_from_pdf (d : RawDoc) : List (Nat × String) × List String :=
  match d.parsed with
  | none => ([], ["Error processing " ++ d.name])
  | some ps => (extract_pages_aux 1 ps, [])

/-- The page mapping of one document. -/
def doc_pages (d : RawDoc) : List (Nat × String) := (extract_text_from_pdf d).1

/-- The log lines emitted while extracting one document. -/
def doc_log (d : RawDoc) : List String := (extract_text_from_pdf d).2

/-- The per-document section list of `process_pdf_collection`:
`for page_num, text in pages.items(): ... section['page_number'] =
page_num`. -/
def doc_sections (d : RawDoc) : List PSection :=
  (doc_pages d).flatMap fun pg =>
    (extract_sections_from_text pg.2).map fun s => { s with page_number := pg.1 }

/-! ## The analysis pipeline (`pdf_analyzer.py`, `json_handler.py`) -/

/-- The parsed input manifest fields the pipeline reads
(`challenge1b_input.json`). -/
structure InputData where
  documents : List String
  persona_role : String
  task : String
deriving DecidableEq

/-- One record of the `subsection_analysis` output list. -/
structure Subsection where
  document : String
  refined_text : String
  page_number : Nat
deriving DecidableEq

/-- The `metadata` object of `create_output_structure`. -/
structure Metadata where
  input_documents : List String
  persona : String
  job_to_be_done : String
  processing_timestamp : String
deriving DecidableEq

/-- The output record. -/
structure OutputData where
  metadata : Metadata
  extracted_sections : List ExtractedSection
  subsection_analysis : List Subsection
deriving DecidableEq

/-- Mapping `PDFAnalyzer._get_content_type` (total over the enumeration; the
source's `'general'` default is unreachable for the three personas). -/
def get_content_type : PersonaType → String
  | .TRAVEL_PLANNER => "travel"
  | .HR_PROFESSIONAL => "hr"
  | .FOOD_CONTRACTOR => "food"

/-- Gathering step of `analyze_collection`: every document's sections,
tagged with the document filename, in document order. -/
def all_sections_of (docs : List RawDoc) : List PSection :=
  docs.flatMap fun d => (doc_sections d).map fun s => { s with document := d.name }

/-- Page gathering of `_generate_subsection_analysis`: (document, page
number, page text) triples in document order. -/
def all_pages_of (docs : List RawDoc) : List (String × Nat × String) :=
  docs.flatMap fun d => (doc_pages d).map fun pg => (d.name, pg.1, pg.2)

/-- The stably score-sorted page list of `_generate_subsection_analysis`. -/
def ranked_pages_of (p : PersonaType) (task : String) (docs : List RawDoc) :
    List ((String × Nat × String) × ℚ) :=
  sortDesc Prod.snd
    ((all_pages_of docs).map fun pg => (pg, (analyze_content_relevance pg.2.2 p task).1))

/-- The `subsection_analysis` list: refine the top 5 ranked pages and keep a
result only `if refined_text and len(refined_text) > 50`. -/
def subsection_analysis_of (refine : String → String → String) (ct : String)
    (rankedPages : List ((String × Nat × String) × ℚ)) : List Subsection :=
  (rankedPages.take 5).filterMap fun pr =>
    if refine pr.1.2.2 ct ≠ "" ∧ 50 < (refine pr.1.2.2 ct).length then
      some { document := pr.1.1, refined_text := refine pr.1.2.2 ct,
             page_number := pr.1.2.1 }
    else none

/-- Pipeline `PDFAnalyzer.analyze_collection`, parameterised by the refinement
function (`TextRefiner.create_actionable_summary`) and by the processing
timestamp that `create_output_structure` reads from the clock. -/
def analyze_collection (refine : String → String → String) (input : InputData)
    (docs : List RawDoc) (timestamp : String) : OutputData :=
  { metadata :=
      { input_documents := input.documents
        persona := input.persona_role
        job_to_be_done := input.task
        processing_timestamp := timestamp }
    extracted_sections := top_extracted
      (rank_sections_by_importance (all_sections_of docs)
        (get_persona_type input.persona_role) input.task),
    subsection_analysis := subsection_analysis_of refine
      (get_content_type (get_persona_type input.persona_role))
      (ranked_pages_of (get_persona_type input.persona_role) input.task docs) }

/-! ## Claims C8 and C9 -/

/-- C8: two pipeline runs on identical documents, persona role and task
agree on every output field except the processing timestamp, which is
exactly the timestamp passed in.  All score, ranking and refinement steps
are pure functions of the inputs; the timestamp flows only into
`metadata.processing_timestamp`. -/
theorem claim_C8_run_determinism (refine : String → String → String) (input : InputData)
    (docs : List RawDoc) (t1 t2 : String) :
    (analyze_collection refine input docs t1).extracted_sections
      = (analyze_collection refine input docs t2).extracted_sections ∧
    (analyze_collection refine input docs t1).subsection_analysis
      = (analyze_collection refine input docs t2).subsection_analysis ∧
    (analyze_collection refine input docs t1).metadata.input_documents
      = (analyze_collection refine input docs t2).metadata.input_documents ∧
    (analyze_collection refine input docs t1).metadata.persona
      = (analyze_collection refine input docs t2).metadata.persona ∧
    (analyze_collection refine input docs t1).metadata.job_to_be_done
      = (analyze_collection refine input docs t2).metadata.job_to_be_done ∧
    (analyze_collection refine input docs t1).metadata.processing_timestamp = t1 :=
  ⟨rfl, rfl, rfl, rfl, rfl, rfl⟩

/-- C9 counterexample: a document whose parser call returns an EMPTY page
sequence is a parse failure per the claim, and it does yield zero pages and
zero sections — but nothing is logged (the source only prints on the
exception path), contradicting the claim's "... and is logged". -/
theorem claim_C9_counterexample :
    doc_pages { name := "empty.pdf", parsed := some [] } = [] ∧
    doc_sections { name := "empty.pdf", parsed := some [] } = [] ∧
    doc_log { name := "empty.pdf", parsed := some [] } = [] := by
  decide

/-- C9 (amended): a document whose extraction yields no pages (parser
exception or empty page sequence) contributes zero sections and zero pages,
and the pipeline output over any collection containing it is identical to
the output over the collection with it removed — sibling documents are
processed exactly as before and the collection is never aborted.  A parser
exception is logged; an empty page sequence, contrary to the original
claim, is not. -/
theorem claim_C9_amended_failure_isolation (refine : String → String → String)
    (input : InputData) (docs1 docs2 : List RawDoc) (d : RawDoc) (ts : String)
    (h : doc_pages d = []) :
    doc_sections d = [] ∧
    analyze_collection refine input (docs1 ++ d :: docs2) ts
      = analyze_collection refine input (docs1 ++ docs2) ts ∧
    (d.parsed = none → doc_log d ≠ []) := by
  have hsec : doc_sections d = [] := by
    simp [doc_sections, h]
  refine ⟨hsec, ?_, ?_⟩
  · have hs : all_sections_of (docs1 ++ d :: docs2) = all_sections_of (docs1 ++ docs2) := by
      simp [all_sections_of, List.flatMap_append, List.flatMap_cons, hsec]
    have hp : all_pages_of (docs1 ++ d :: docs2) = all_pages_of (docs1 ++ docs2) := by
      simp [all_pages_of, List.flatMap_append, List.flatMap_cons, h]
    simp only [analyze_collection, ranked_pages_of, hs, hp]
  · intro hnone
    simp [doc_log, extract_text_from_pdf, hnone]

/-- The identity refinement function, used to instantiate the
refiner-parameterised pipeline theorems at a concrete function. -/
def refine_id : String → String → String := fun t _ => t

/-- A document that parses normally, for the C9 witness. -/
def c9_good : RawDoc :=
  { name := "good.pdf", parsed := some [some (String.mk (List.replicate 12 'q'))] }

/-- A document whose parser returns an empty page sequence, for the C9
witness. -/
def c9_bad : RawDoc := { name := "bad.pdf", parsed := some [] }

/-- The input manifest of the C9 witness. -/
def c9_input : InputData :=
  { documents := ["good.pdf", "bad.pdf"], persona_role := "Travel Planner",
    task := "Plan a trip" }

/-- C9 witness: the amended claim applied to a concrete two-document
collection whose second document yields an empty page sequence. -/
theorem claim_C9_witness :
    doc_sections c9_bad = [] ∧
    analyze_collection refine_id c9_input [c9_good, c9_bad] "2025-01-01T00:00:00"
      = analyze_collection refine_id c9_input [c9_good] "2025-01-01T00:00:00" ∧
    (c9_bad.parsed = none → doc_log c9_bad ≠ []) :=
  claim_C9_amended_failure_isolation refine_id c9_input [c9_good] [] c9_bad
    "2025-01-01T00:00:00" (by decide)

/-! ## Generic summarization (`text_refiner.py`) -/

/-- Constant `TextRefiner.max_summary_length`. -/
def max_summary_length : Nat := 500

/-- The importance keywords of `_select_important_sentences` (+3 each). -/
def important_words : List String :=
  ["important", "key", "essential", "main", "primary", "best", "top"]

/-- The action words of `_select_important_sentences` (+2 each). -/
def action_words : List String :=
  ["create", "build", "make", "do", "use", "try", "visit", "explore"]

/-- The specific terms of `_select_important_sentences` (+2 each). -/
def specific_terms : List String :=
  ["recipe", "ingredient", "form", "workflow", "destination", "activity"]

/-- The per-sentence score of `_select_important_sentences`: a length-band
bonus (2 for 20..100, else 1 for 10..150), plus 3 per importance keyword, 2
per action word and 2 per specific term contained in the lowered
sentence. -/
def sentence_score (s : String) : Nat :=
  (if 20 ≤ s.length ∧ s.length ≤ 100 then 2
   else if 10 ≤ s.length ∧ s.length ≤ 150 then 1 else 0)
  + 3 * important_words.countP (fun w => pyContains (pyLower s) w)
  + 2 * action_words.countP (fun w => pyContains (pyLower s) w)
  + 2 * specific_terms.countP (fun w => pyContains (pyLower s) w)

/-- Selection `TextRefiner._select_important_sentences`: stable sort by descending
score, keep the top 5. -/
def select_important_sentences (sentences : List String) : List String :=
  ((sortDesc Prod.snd (sentences.map fun s => (s, sentence_score s))).take 5).map Prod.fst

/-- The stripped non-empty sentence segments of
`[s.strip() for s in re.split(r'[.!?]+', text) if s.strip()]`. -/
def sentence_list (text : String) : List String :=
  ((rePunctSplit text).map pyStrip).filter (fun s => s ≠ "")

/-- The accumulation loop of `summarize_content`:
`if len(summary + sentence) <= max_length: summary += sentence + ". "
else: break`. -/
def build_summary : List String → String → Nat → String
  | [], acc, _ => acc
  | s :: rest, acc, maxLen =>
    if acc.length + s.length ≤ maxLen then build_summary rest (acc ++ s ++ ". ") maxLen
    else acc

/-- Summarizer `TextRefiner.summarize_content` with an explicit maximum length (the
source call sites pass `max_summary_length`). -/
def summarize_content (text : String) (maxLen : Nat) : String :=
  if text = "" then ""
  else if sentence_list text = [] then ""
  else if text.length ≤ maxLen then text
  else pyStrip (build_summary (select_important_sentences (sentence_list text)) "" maxLen)

theorem length_dropWhile_le (p : Char → Bool) (l : List Char) :
    (l.dropWhile p).length ≤ l.length := by
  induction l with
  | nil => simp
  | cons c cs ih =>
    by_cases h : p c
    · simp only [List.dropWhile_cons, h, if_true]
      exact Nat.le_succ_of_le ih
    · simp [List.dropWhile_cons, h]

theorem stripList_length_le (l : List Char) : (stripList l).length ≤ l.length := by
  unfold stripList
  calc ((l.reverse.dropWhile Char.isWhitespace).reverse.dropWhile Char.isWhitespace).length
      ≤ (l.reverse.dropWhile Char.isWhitespace).reverse.length := length_dropWhile_le _ _
    _ = (l.reverse.dropWhile Char.isWhitespace).length := List.length_reverse _
    _ ≤ l.reverse.length := length_dropWhile_le _ _
    _ = l.length := List.length_reverse _

/-- Stripping a string that ends in `". "` loses at least the final
space. -/
theorem strip_dot_space_length (a : String) :
    (pyStrip (a ++ ". ")).length ≤ a.length + 1 := by
  have hdata : (a ++ ". ").toList = a.toList ++ ['.', ' '] := String.data_append a ". "
  show (stripList (a ++ ". ").toList).length ≤ a.length + 1
  rw [hdata]
  unfold stripList
  rw [List.reverse_append]
  have hrev : (['.', ' '] : List Char).reverse = [' ', '.'] := rfl
  rw [hrev]
  have hws : Char.isWhitespace ' ' = true := rfl
  have hdot : Char.isWhitespace '.' = false := rfl
  simp only [List.cons_append, List.nil_append, List.dropWhile_cons, hws, hdot,
    if_true, if_false, Bool.false_eq_true, List.reverse_cons]
  calc (((a.toList.reverse.reverse ++ ['.']).dropWhile Char.isWhitespace)).length
      ≤ (a.toList.reverse.reverse ++ ['.']).length := length_dropWhile_le _ _
    _ = a.length + 1 := by
        rw [List.reverse_reverse, List.length_append]
        rfl

/-- Invariant of the summary accumulation loop: the accumulator stays `""`
or of the shape `a ++ ". "`, and its length never exceeds `maxLen + 2`. -/
theorem build_summary_shape (l : List String) :
    ∀ (acc : String) (maxLen : Nat),
      (acc = "" ∨ ∃ a : String, acc = a ++ ". ") → acc.length ≤ maxLen + 2 →
      ((build_summary l acc maxLen = "" ∨ ∃ a, build_summary l acc maxLen = a ++ ". ")
        ∧ (build_summary l acc maxLen).length ≤ maxLen + 2) := by
  induction l with
  | nil =>
    intro acc maxLen hshape hlen
    exact ⟨hshape, hlen⟩
  | cons s rest ih =>
    intro acc maxLen hshape hlen
    by_cases h : acc.length + s.length ≤ maxLen
    · simp only [build_summary, if_pos h]
      refine ih (acc ++ s ++ ". ") maxLen (Or.inr ⟨acc ++ s, rfl⟩) ?_
      have hps : (". " : String).length = 2 := rfl
      have : (acc ++ s ++ ". ").length = acc.length + s.length + 2 := by
        rw [String.length_append, String.length_append, hps]
      omega
    · simp only [build_summary, if_neg h]
      exact ⟨hshape, hlen⟩

/-- The generic summarizer returns the empty string or at most
`maxLen + 1` characters: a sentence may be accepted when the summary plus
the sentence is exactly `maxLen` long, after which the appended `". "`
exceeds the limit by two and the final strip recovers only one. -/
theorem summarize_content_length (text : String) (maxLen : Nat) :
    summarize_content text maxLen = ""
      ∨ (summarize_content text maxLen).length ≤ maxLen + 1 := by
  unfold summarize_content
  by_cases h0 : text = ""
  · simp [h0]
  · rw [if_neg h0]
    by_cases h1 : sentence_list text = []
    · simp [h1]
    · rw [if_neg h1]
      by_cases h2 : text.length ≤ maxLen
      · rw [if_pos h2]
        right
        omega
      · rw [if_neg h2]
        right
        obtain ⟨hshape, hlen⟩ := build_summary_shape
          (select_important_sentences (sentence_list text)) "" maxLen (Or.inl rfl)
          (by simp)
        rcases hshape with heq | ⟨a, heq⟩
        · rw [heq]
          have : pyStrip "" = "" := rfl
          rw [this]
          simp
        · rw [heq]
          have h3 := strip_dot_space_length a
          have hps : (". " : String).length = 2 := rfl
          have h4 : (a ++ ". ").length = a.length + 2 := by
            rw [String.length_append, hps]
          rw [heq] at hlen
          omega

/-! ## Claim C7 -/

/-- The 500-character sentence of the C7 counterexample. -/
def c7_long_sentence : String := String.mk (List.replicate 500 'a')

/-- The C7 counterexample text: a 500-character sentence, a period, and a
short second sentence, 504 characters in all. -/
def c7_text : String := c7_long_sentence ++ ". zz"

set_option maxRecDepth 40000 in
/-- C7 counterexample: the generic summarizer (the `create_actionable_summary`
branch for a content type other than travel/hr/food, and the fallback of all
three specific branches) produces a NON-empty summary of 501 characters —
strictly more than the configured maximum summary length 500 — although no
extracted field is involved at all on this path (and no sentence of the
input exceeds 500 characters). -/
theorem claim_C7_counterexample :
    summarize_content c7_text max_summary_length ≠ "" ∧
    max_summary_length < (summarize_content c7_text max_summary_length).length := by
  decide

/-- C7 (amended): a refinement result is included in the pipeline output
only if its length strictly exceeds 50 characters (shorter results are
silently discarded — this holds for every refinement function); and the
generic summarizer returns either the empty string or a string of at most
`max_summary_length + 1` characters (the original bound of 500 can be
exceeded by exactly the one trailing period, and the type-specific
field-assembled summaries are not length-capped at all). -/
theorem claim_C7_refinement_gating :
    (∀ (refine : String → String → String) (input : InputData) (docs : List RawDoc)
        (ts : String) (e : Subsection),
      e ∈ (analyze_collection refine input docs ts).subsection_analysis →
      50 < e.refined_text.length) ∧
    (∀ text : String, summarize_content text max_summary_length = ""
      ∨ (summarize_content text max_summary_length).length ≤ max_summary_length + 1) := by
  constructor
  · intro refine input docs ts e he
    simp only [analyze_collection] at he
    unfold subsection_analysis_of at he
    rcases List.mem_filterMap.mp he with ⟨pr, hmem, hf⟩
    by_cases hc : refine pr.1.2.2 (get_content_type (get_persona_type input.persona_role))
        ≠ "" ∧
        50 < (refine pr.1.2.2 (get_content_type (get_persona_type input.persona_role))).length
    · rw [if_pos hc] at hf
      obtain rfl := Option.some.inj hf
      exact hc.2
    · rw [if_neg hc] at hf
      cases hf
  · intro text
    exact summarize_content_length text max_summary_length

/-- The single-page document of the C7 witness. -/
def c7w_text : String := String.mk (List.replicate 55 'z')

/-- The document of the C7 witness. -/
def c7w_doc : RawDoc := { name := "doc.pdf", parsed := some [some c7w_text] }

/-- The input manifest of the C7 witness. -/
def c7w_input : InputData :=
  { documents := ["doc.pdf"], persona_role := "HR Professional", task := "Create forms" }

/-- The subsection record produced by the C7 witness run. -/
def c7w_entry : Subsection :=
  { document := "doc.pdf", refined_text := c7w_text, page_number := 1 }

/-- C7 witness: a concrete pipeline run (identity refiner on a 55-character
page) produces a subsection entry, and the gating theorem applied to it
yields its length bound; the summarizer bound instantiated at the empty
text. -/
theorem claim_C7_witness :
    50 < c7w_entry.refined_text.length ∧
    (summarize_content "" max_summary_length = ""
      ∨ (summarize_content "" max_summary_length).length ≤ max_summary_length + 1) :=
  ⟨claim_C7_refinement_gating.1 refine_id c7w_input [c7w_doc] "2025-01-01T00:00:00"
      c7w_entry (by decide),
   claim_C7_refinement_gating.2 ""⟩

/-! ## Claim C10: the page mapping invariant -/

theorem mem_extract_pages_aux {ps : List (Option String)} :
    ∀ {i n : Nat} {t : String}, (n, t) ∈ extract_pages_aux i ps →
      ∃ j raw, ps[j]? = some (some raw) ∧ n = i + j ∧ raw ≠ "" ∧ t = pyStrip raw := by
  induction ps with
  | nil =>
    intro i n t h
    cases h
  | cons ot rest ih =>
    intro i n t h
    simp only [extract_pages_aux] at h
    rcases List.mem_append.mp h with hl | hr
    · cases ot with
      | none => cases hl
      | some s =>
        have hl2 : (n, t) ∈ (if s ≠ "" then [(i, pyStrip s)] else []) := hl
        by_cases hs : s ≠ ""
        · rw [if_pos hs] at hl2
          have hpair : (n, t) = (i, pyStrip s) := List.mem_singleton.mp hl2
          have hn : n = i := congrArg Prod.fst hpair
          have ht : t = pyStrip s := congrArg Prod.snd hpair
          exact ⟨0, s, by simp, by omega, hs, ht⟩
        · rw [if_neg hs] at hl2
          cases hl2
    · rcases ih hr with ⟨j, raw, hget, hn, hraw, ht⟩
      refine ⟨j + 1, raw, ?_, by omega, hraw, ht⟩
      simpa using hget

theorem snd_mem_of_mem_enum {α : Type} {l : List α} {i : Nat} {a : α}
    (h : (i, a) ∈ l.enum) : a ∈ l := by
  obtain ⟨hlt, ha⟩ := List.mem_enum h
  rw [ha]
  exact List.getElem_mem hlt

/-- Destructor for membership in `all_sections_of`: the section came from
some document, carries its filename, and its page number is a key of that
document's page mapping. -/
theorem mem_all_sections_of {docs : List RawDoc} {s : PSection}
    (h : s ∈ all_sections_of docs) :
    ∃ d, d ∈ docs ∧ s.document = d.name ∧ s.page_number ∈ (doc_pages d).map Prod.fst := by
  rcases List.mem_flatMap.mp h with ⟨d, hd, hs⟩
  rcases List.mem_map.mp hs with ⟨s1, hs1, rfl⟩
  rcases List.mem_flatMap.mp hs1 with ⟨pg, hpg, hs2⟩
  rcases List.mem_map.mp hs2 with ⟨s2, _, rfl⟩
  exact ⟨d, hd, rfl, List.mem_map.mpr ⟨pg, hpg, rfl⟩⟩

/-- Destructor for membership in `all_pages_of`. -/
theorem mem_all_pages_of {docs : List RawDoc} {pg : String × Nat × String}
    (h : pg ∈ all_pages_of docs) :
    ∃ d, d ∈ docs ∧ pg.1 = d.name ∧ pg.2.1 ∈ (doc_pages d).map Prod.fst := by
  rcases List.mem_flatMap.mp h with ⟨d, hd, hpg⟩
  rcases List.mem_map.mp hpg with ⟨q, hq, rfl⟩
  exact ⟨d, hd, rfl, List.mem_map.mpr ⟨q, hq, rfl⟩⟩

/-- C10: the page mapping of a document contains exactly the pages whose
extracted text is non-`None` and non-empty, with the 1-based page number and
the stripped text; pages with empty or missing text are omitted entirely;
every document/page reference in either output list points at a key of some
document's page mapping (so an omitted page number can never appear in the
output); and the keys need not be contiguous (a concrete two-page document
whose first page is empty maps only page 2). -/
theorem claim_C10_page_mapping_invariant :
    (∀ (d : RawDoc) (n : Nat) (t : String), (n, t) ∈ doc_pages d →
      ∃ ps raw, d.parsed = some ps ∧ 1 ≤ n ∧ ps[n - 1]? = some (some raw) ∧
        raw ≠ "" ∧ t = pyStrip raw) ∧
    (∀ (d : RawDoc) (ps : List (Option String)) (j : Nat), d.parsed = some ps →
      (ps[j]? = some none ∨ ps[j]? = some (some "")) →
      ∀ t : String, (j + 1, t) ∉ doc_pages d) ∧
    (∀ (refine : String → String → String) (input : InputData) (docs : List RawDoc)
        (ts : String) (e : ExtractedSection),
      e ∈ (analyze_collection refine input docs ts).extracted_sections →
      ∃ d, d ∈ docs ∧ e.document = d.name ∧
        e.page_number ∈ (doc_pages d).map Prod.fst) ∧
    (∀ (refine : String → String → String) (input : InputData) (docs : List RawDoc)
        (ts : String) (e : Subsection),
      e ∈ (analyze_collection refine input docs ts).subsection_analysis →
      ∃ d, d ∈ docs ∧ e.document = d.name ∧
        e.page_number ∈ (doc_pages d).map Prod.fst) ∧
    doc_pages { name := "gap.pdf", parsed := some [none, some "hi "] } = [(2, "hi")] := by
  have hmem : ∀ (d : RawDoc) (n : Nat) (t : String), (n, t) ∈ doc_pages d →
      ∃ ps raw, d.parsed = some ps ∧ 1 ≤ n ∧ ps[n - 1]? = some (some raw) ∧
        raw ≠ "" ∧ t = pyStrip raw := by
    intro d n t h
    unfold doc_pages extract_text_from_pdf at h
    cases hp : d.parsed with
    | none =>
      rw [hp] at h
      cases h
    | some ps =>
      rw [hp] at h
      rcases mem_extract_pages_aux h with ⟨j, raw, hget, hn, hraw, ht⟩
      refine ⟨ps, raw, rfl, by omega, ?_, hraw, ht⟩
      have hj : n - 1 = j := by omega
      rw [hj]
      exact hget
  refine ⟨hmem, ?_, ?_, ?_, by decide⟩
  · intro d ps j hps hbad t hcontra
    rcases hmem d (j + 1) t hcontra with ⟨ps2, raw, hps2, _, hget, hraw, _⟩
    rw [hps] at hps2
    obtain rfl := Option.some.inj hps2
    have hj : j + 1 - 1 = j := by omega
    rw [hj] at hget
    rcases hbad with hb | hb
    · rw [hb] at hget
      cases Option.some.inj hget
    · rw [hb] at hget
      exact hraw (Option.some.inj (Option.some.inj hget)).symm
  · intro refine input docs ts e he
    simp only [analyze_collection] at he
    unfold top_extracted at he
    rcases List.mem_map.mp he with ⟨ip, hip, rfl⟩
    have hpr : ip.2 ∈ (rank_sections_by_importance (all_sections_of docs)
        (get_persona_type input.persona_role) input.task).take 5 := by
      have := snd_mem_of_mem_enum (l :=
        (rank_sections_by_importance (all_sections_of docs)
          (get_persona_type input.persona_role) input.task).take 5) (i := ip.1) (a := ip.2)
      exact this hip
    have hpr2 : ip.2 ∈ rank_sections_by_importance (all_sections_of docs)
        (get_persona_type input.persona_role) input.task :=
      List.take_subset 5 _ hpr
    unfold rank_sections_by_importance at hpr2
    have hpr3 := (sortDesc_perm (Prod.snd) _).mem_iff.mp hpr2
    rcases List.mem_map.mp hpr3 with ⟨s, hsmem, hseq⟩
    have hsecmem := mem_all_sections_of hsmem
    rcases hsecmem with ⟨d, hd, hdoc, hpage⟩
    have h1 : ip.2.1 = s := congrArg Prod.fst hseq.symm
    refine ⟨d, hd, ?_, ?_⟩
    · show ip.2.1.document = d.name
      rw [h1]
      exact hdoc
    · show ip.2.1.page_number ∈ (doc_pages d).map Prod.fst
      rw [h1]
      exact hpage
  · intro refine input docs ts e he
    simp only [analyze_collection] at he
    unfold subsection_analysis_of at he
    rcases List.mem_filterMap.mp he with ⟨pr, hmem5, hf⟩
    by_cases hc : refine pr.1.2.2 (get_content_type (get_persona_type input.persona_role))
        ≠ "" ∧
        50 < (refine pr.1.2.2 (get_content_type (get_persona_type input.persona_role))).length
    · rw [if_pos hc] at hf
      obtain rfl := Option.some.inj hf
      have hpr2 : pr ∈ ranked_pages_of (get_persona_type input.persona_role)
          input.task docs := List.take_subset 5 _ hmem5
      unfold ranked_pages_of at hpr2
      have hpr3 := (sortDesc_perm (Prod.snd) _).mem_iff.mp hpr2
      rcases List.mem_map.mp hpr3 with ⟨pg, hpgmem, hpgeq⟩
      rcases mem_all_pages_of hpgmem with ⟨d, hd, hdoc, hpage⟩
      have h1 : pr.1 = pg := congrArg Prod.fst hpgeq.symm
      refine ⟨d, hd, ?_, ?_⟩
      · show pr.1.1 = d.name
        rw [h1]
        exact hdoc
      · show pr.1.2.1 ∈ (doc_pages d).map Prod.fst
        rw [h1]
        exact hpage
    · rw [if_neg hc] at hf
      cases hf

/-- The two-page document (first page `None`) used by the C10 witness. -/
def c10_gap_doc : RawDoc := { name := "gap.pdf", parsed := some [none, some "hi "] }

/-- A one-page, one-section document for the C10 witness pipeline run. -/
def c10w_doc : RawDoc :=
  { name := "w.pdf", parsed := some [some (String.mk (List.replicate 55 'z'))] }

/-- The input manifest of the C10 witness. -/
def c10w_input : InputData :=
  { documents := ["w.pdf"], persona_role := "Food Contractor", task := "Prepare a menu" }

/-- The extracted-section record of the C10 witness run: the 55-character
line is a header candidate (one word, longer than 10 characters), so it
becomes the single ranked section of page 1. -/
def c10w_entry : ExtractedSection :=
  { document := "w.pdf", section_title := String.mk (List.replicate 55 'z'),
    importance_rank := 1, page_number := 1 }

set_option maxRecDepth 40000 in
/-- C10 witness: the mapping characterisation applied to the concrete entry
`(2, "hi")` of the gap document, and the output-reference part applied to a
concrete pipeline run. -/
theorem claim_C10_witness :
    (∃ ps raw, c10_gap_doc.parsed = some ps ∧ 1 ≤ 2 ∧ ps[2 - 1]? = some (some raw) ∧
      raw ≠ "" ∧ "hi" = pyStrip raw) ∧
    (∃ d, d ∈ [c10w_doc] ∧ c10w_entry.document = d.name ∧
      c10w_entry.page_number ∈ (doc_pages d).map Prod.fst) :=
  ⟨claim_C10_page_mapping_invariant.1 c10_gap_doc 2 "hi" (by decide),
   claim_C10_page_mapping_invariant.2.2.1 refine_id c10w_input [c10w_doc]
     "2025-01-01T00:00:00" c10w_entry (by decide)⟩

end AdobePDF
